import Mathlib

/-!
Shallow embedding of `src/analysis/call_checker.rs` (clarity-repl): the
arity-checking analysis pass for calls to user-defined functions.

The pass state (`CallChecker`) and its methods (`visit_define_private`,
`visit_define_public`, `visit_define_read_only`, `visit_call_user_defined`,
`check_user_calls`, `generate_diagnostic`, `run`, `run_pass`) are translated
from the Rust source.  The generic traversal engine (`ast_visitor.rs`) is an
external collaborator and is modelled, from the specification, as a fold of
the visitor hooks over the sequence of visitation events; the `HashMap` used
for the arity table is modelled as an association list where insertion
prepends and lookup returns the most recently inserted binding, matching
`HashMap::insert` (overwrite) and `HashMap::get`.
-/

namespace Checker

/-- Source span attached to every expression node (line/column extent),
translated from `clarity::diagnostic::Span`. -/
structure Span where
  start_line : Nat
  start_column : Nat
  end_line : Nat
  end_column : Nat
  deriving DecidableEq, Repr

/-- Function names are interned strings (`clarity::ClarityName`). -/
abbrev ClarityName := String

/-- Severity level of a diagnostic (`clarity::diagnostic::Level`). -/
inductive Level where
  | Note
  | Warning
  | Error
  deriving DecidableEq, Repr

/-- Structured diagnostic (`clarity::diagnostic::Diagnostic`): severity,
message, list of source spans, optional fix suggestion. -/
structure Diagnostic where
  level : Level
  message : String
  spans : List Span
  suggestion : Option String
  deriving DecidableEq, Repr

/-- Expression node of the parsed program
(`clarity::representations::SymbolicExpression`).  The pass reads only the
node identifier and the source span; the expression payload is never
inspected by `call_checker.rs`, so it is omitted here. -/
structure SymbolicExpression where
  id : Nat
  span : Span
  deriving DecidableEq, Repr

/-- Typed function parameter as handed to the definition hooks by the
traversal engine (`ast_visitor::TypedVar`).  Only the list length is read by
this pass. -/
structure TypedVar where
  name : ClarityName
  type_expr : SymbolicExpression
  deriving DecidableEq, Repr

/-- Pass state, translated from `struct CallChecker` in `call_checker.rs`:
accumulated diagnostics, the arity table `user_funcs` (parameter count per
user-defined function), and the pending call list `user_calls` (deferred
argument counts for calls whose target is not yet defined). -/
structure CallChecker where
  diagnostics : List Diagnostic
  user_funcs : List (ClarityName × Nat)
  user_calls : List (ClarityName × SymbolicExpression × Nat)
  deriving DecidableEq, Repr

/-- Fresh pass state (`CallChecker::new`): everything empty. -/
def CallChecker.new : CallChecker :=
  { diagnostics := [], user_funcs := [], user_calls := [] }

/-- Diagnostic construction (`CallChecker::generate_diagnostic`): an
error-severity diagnostic with the exact message produced by the Rust
`format!` call, a single span equal to the call expression's span, and no
suggestion.  (The Rust method takes `&mut self` but never reads or writes
`self`, so it is a plain function here.) -/
def generate_diagnostic (expr : SymbolicExpression) (name : ClarityName)
    (expected : Nat) (got : Nat) : Diagnostic :=
  { level := Level.Error
    message := "incorrect number of arguments in call to \x27" ++ name ++
      "\x27 (expected " ++ toString expected ++ " got " ++ toString got ++ ")"
    spans := [expr.span]
    suggestion := none }

/-- Definition hook for `define-private` (`visit_define_private`): records
the parameter count (0 when the parameter list is absent) into the arity
table and returns `true` to continue recursion.  `HashMap::insert` is
modelled as a prepend, so lookup sees the most recent binding. -/
def CallChecker.visit_define_private (self : CallChecker)
    (expr : SymbolicExpression) (name : ClarityName)
    (parameters : Option (List TypedVar)) (body : SymbolicExpression) :
    CallChecker × Bool :=
  let num_params := match parameters with
    | some parameters => parameters.length
    | none => 0
  ({ self with user_funcs := (name, num_params) :: self.user_funcs }, true)

/-- Definition hook for `define-public` (`visit_define_public`); identical
behaviour to the `define-private` hook. -/
def CallChecker.visit_define_public (self : CallChecker)
    (expr : SymbolicExpression) (name : ClarityName)
    (parameters : Option (List TypedVar)) (body : SymbolicExpression) :
    CallChecker × Bool :=
  let num_params := match parameters with
    | some parameters => parameters.length
    | none => 0
  ({ self with user_funcs := (name, num_params) :: self.user_funcs }, true)

/-- Definition hook for `define-read-only` (`visit_define_read_only`);
identical behaviour to the `define-private` hook. -/
def CallChecker.visit_define_read_only (self : CallChecker)
    (expr : SymbolicExpression) (name : ClarityName)
    (parameters : Option (List TypedVar)) (body : SymbolicExpression) :
    CallChecker × Bool :=
  let num_params := match parameters with
    | some parameters => parameters.length
    | none => 0
  ({ self with user_funcs := (name, num_params) :: self.user_funcs }, true)

/-- Call hook for calls to user-defined functions
(`visit_call_user_defined`): if the arity table has an entry, check the
argument count immediately and push a diagnostic on mismatch; otherwise
defer by appending `(name, expr, args.len())` to the pending call list.
Always returns `true`. -/
def CallChecker.visit_call_user_defined (self : CallChecker)
    (expr : SymbolicExpression) (name : ClarityName)
    (args : List SymbolicExpression) : CallChecker × Bool :=
  match self.user_funcs.lookup name with
  | some param_count =>
    if args.length ≠ param_count then
      ({ self with diagnostics :=
          self.diagnostics ++ [generate_diagnostic expr name param_count args.length] },
        true)
    else
      (self, true)
  | none =>
    ({ self with user_calls := self.user_calls ++ [(name, expr, args.length)] }, true)

/-- Visitation events delivered by the external traversal engine: one
constructor per typed hook of `ASTVisitor` that `CallChecker` implements,
carrying exactly the arguments the engine passes to that hook. -/
inductive VisitEvent where
  | define_private (expr : SymbolicExpression) (name : ClarityName)
      (parameters : Option (List TypedVar)) (body : SymbolicExpression)
  | define_public (expr : SymbolicExpression) (name : ClarityName)
      (parameters : Option (List TypedVar)) (body : SymbolicExpression)
  | define_read_only (expr : SymbolicExpression) (name : ClarityName)
      (parameters : Option (List TypedVar)) (body : SymbolicExpression)
  | call_user_defined (expr : SymbolicExpression) (name : ClarityName)
      (args : List SymbolicExpression)
  deriving DecidableEq, Repr

/-- Dispatch of one visitation event to the corresponding hook, keeping the
resulting state (the boolean continue-recursion flag is consumed by the
external engine). -/
def CallChecker.step (self : CallChecker) (e : VisitEvent) : CallChecker :=
  match e with
  | VisitEvent.define_private expr name parameters body =>
    (self.visit_define_private expr name parameters body).1
  | VisitEvent.define_public expr name parameters body =>
    (self.visit_define_public expr name parameters body).1
  | VisitEvent.define_read_only expr name parameters body =>
    (self.visit_define_read_only expr name parameters body).1
  | VisitEvent.call_user_defined expr name args =>
    (self.visit_call_user_defined expr name args).1

/-- Modelled from the spec: the Traversal Engine (`ast_visitor::traverse`)
is an external collaborator that walks the expression forest and invokes the
typed hooks in visitation order; since every hook of this pass returns
`true`, the engine recurses everywhere and the pass sees a fixed sequence of
visitation events, so traversal is the fold of the hooks over that
sequence. -/
def CallChecker.traverse (self : CallChecker) (events : List VisitEvent) :
    CallChecker :=
  events.foldl CallChecker.step self

/-- Reconciliation (`CallChecker::check_user_calls`): iterate the pending
call list once, in order; for each record whose name is now in the arity
table with a differing parameter count, push a diagnostic.  The table and
the pending list themselves are not modified by the loop. -/
def CallChecker.check_user_calls (self : CallChecker) : CallChecker :=
  { self with
    diagnostics :=
      self.user_calls.foldl
        (fun ds r =>
          match self.user_funcs.lookup r.1 with
          | some num_params =>
            if r.2.2 ≠ num_params then
              ds ++ [generate_diagnostic r.2.1 r.1 num_params r.2.2]
            else
              ds
          | none => ds)
        self.diagnostics }

/-- Parsed program handed to the pass (`ContractAnalysis`): its expression
forest, represented by the sequence of visitation events the external
traversal engine produces from it. -/
structure ContractAnalysis where
  expressions : List VisitEvent
  deriving DecidableEq, Repr

/-- Pass outcome (`AnalysisResult = Result<Vec<Diagnostic>, Vec<Diagnostic>>`). -/
abbrev AnalysisResult := Except (List Diagnostic) (List Diagnostic)

/-- Pass driver (`CallChecker::run`): traverse, reconcile, then fail with
the accumulated diagnostics when there is at least one, succeed with an
empty list otherwise. -/
def CallChecker.run (self : CallChecker) (contract_analysis : ContractAnalysis) :
    AnalysisResult :=
  let s := (self.traverse contract_analysis.expressions).check_user_calls
  if s.diagnostics.length > 0 then
    Except.error s.diagnostics
  else
    Except.ok []

/-- Pipeline entry point (`CallChecker::run_pass`): constructs a fresh
checker and runs it; the analysis database and annotation arguments are
ignored (arbitrary types here). -/
def run_pass {α β : Type} (contract_analysis : ContractAnalysis)
    (analysis_db : α) (annotations : β) : AnalysisResult :=
  let tc := CallChecker.new
  tc.run contract_analysis

/-- Parameter count computed by each definition hook: 0 when the optional
parameter list is absent, else its length. -/
def paramCount (parameters : Option (List TypedVar)) : Nat :=
  match parameters with
  | some parameters => parameters.length
  | none => 0

/-- Arity table obtained after processing a sequence of visitation events,
starting from a given table: each definition event prepends its binding
(most recent binding shadows older ones), call events leave the table
unchanged. -/
def tableAfter (funcs : List (ClarityName × Nat)) :
    List VisitEvent → List (ClarityName × Nat)
  | [] => funcs
  | VisitEvent.define_private _ name parameters _ :: rest =>
    tableAfter ((name, paramCount parameters) :: funcs) rest
  | VisitEvent.define_public _ name parameters _ :: rest =>
    tableAfter ((name, paramCount parameters) :: funcs) rest
  | VisitEvent.define_read_only _ name parameters _ :: rest =>
    tableAfter ((name, paramCount parameters) :: funcs) rest
  | VisitEvent.call_user_defined _ _ _ :: rest =>
    tableAfter funcs rest

/-- Deferred call records accumulated during traversal, in visitation
order: a call event whose target is not yet in the arity table contributes
one record; definition events only extend the table threaded through. -/
def deferredAfter (funcs : List (ClarityName × Nat)) :
    List VisitEvent → List (ClarityName × SymbolicExpression × Nat)
  | [] => []
  | VisitEvent.define_private _ name parameters _ :: rest =>
    deferredAfter ((name, paramCount parameters) :: funcs) rest
  | VisitEvent.define_public _ name parameters _ :: rest =>
    deferredAfter ((name, paramCount parameters) :: funcs) rest
  | VisitEvent.define_read_only _ name parameters _ :: rest =>
    deferredAfter ((name, paramCount parameters) :: funcs) rest
  | VisitEvent.call_user_defined expr name args :: rest =>
    match funcs.lookup name with
    | some _ => deferredAfter funcs rest
    | none => (name, expr, args.length) :: deferredAfter funcs rest

/-- Immediate-check diagnostics accumulated during traversal, in
visitation order: a call event whose target is already in the arity table
with a differing parameter count contributes one diagnostic. -/
def immDiags (funcs : List (ClarityName × Nat)) :
    List VisitEvent → List Diagnostic
  | [] => []
  | VisitEvent.define_private _ name parameters _ :: rest =>
    immDiags ((name, paramCount parameters) :: funcs) rest
  | VisitEvent.define_public _ name parameters _ :: rest =>
    immDiags ((name, paramCount parameters) :: funcs) rest
  | VisitEvent.define_read_only _ name parameters _ :: rest =>
    immDiags ((name, paramCount parameters) :: funcs) rest
  | VisitEvent.call_user_defined expr name args :: rest =>
    match funcs.lookup name with
    | some param_count =>
      if args.length ≠ param_count then
        generate_diagnostic expr name param_count args.length :: immDiags funcs rest
      else
        immDiags funcs rest
    | none => immDiags funcs rest

/-- Reconciliation outcome for one deferred record against a given arity
table: a diagnostic exactly when the name is present with a differing
count; nothing when the name is absent or the counts agree. -/
def reconDiag (funcs : List (ClarityName × Nat))
    (r : ClarityName × SymbolicExpression × Nat) : Option Diagnostic :=
  match funcs.lookup r.1 with
  | some num_params =>
    if r.2.2 ≠ num_params then
      some (generate_diagnostic r.2.1 r.1 num_params r.2.2)
    else
      none
  | none => none

/-- Diagnostics produced by reconciliation: one pass over the deferred
records, in order, keeping the per-record outcomes. -/
def reconDiags (funcs : List (ClarityName × Nat))
    (calls : List (ClarityName × SymbolicExpression × Nat)) : List Diagnostic :=
  calls.filterMap (reconDiag funcs)

/-- Complete diagnostic list of one pass run from a fresh checker: the
immediate-check diagnostics in visitation order followed by the
deferred-check diagnostics in deferral order. -/
def passDiags (events : List VisitEvent) : List Diagnostic :=
  immDiags [] events ++
    reconDiags (tableAfter [] events) (deferredAfter [] events)

/-- Identifiers of the call expressions that are arity-checked immediately
at visit time (those whose target is already in the table when visited). -/
def immCheckedIds (funcs : List (ClarityName × Nat)) :
    List VisitEvent → List Nat
  | [] => []
  | VisitEvent.define_private _ name parameters _ :: rest =>
    immCheckedIds ((name, paramCount parameters) :: funcs) rest
  | VisitEvent.define_public _ name parameters _ :: rest =>
    immCheckedIds ((name, paramCount parameters) :: funcs) rest
  | VisitEvent.define_read_only _ name parameters _ :: rest =>
    immCheckedIds ((name, paramCount parameters) :: funcs) rest
  | VisitEvent.call_user_defined expr name _ :: rest =>
    match funcs.lookup name with
    | some _ => expr.id :: immCheckedIds funcs rest
    | none => immCheckedIds funcs rest

/-- Identifiers of the deferred call expressions that are arity-checked
during reconciliation (those whose name is present in the final table). -/
def reconCheckedIds (funcs : List (ClarityName × Nat))
    (calls : List (ClarityName × SymbolicExpression × Nat)) : List Nat :=
  calls.filterMap (fun r =>
    match funcs.lookup r.1 with
    | some _ => some r.2.1.id
    | none => none)

/-- Identifiers of all visited call expressions, in visitation order. -/
def callIds : List VisitEvent → List Nat
  | [] => []
  | VisitEvent.define_private _ _ _ _ :: rest => callIds rest
  | VisitEvent.define_public _ _ _ _ :: rest => callIds rest
  | VisitEvent.define_read_only _ _ _ _ :: rest => callIds rest
  | VisitEvent.call_user_defined expr _ _ :: rest => expr.id :: callIds rest

/-- Concrete source span used by the sample programs below. -/
def sampleSpan (i : Nat) : Span :=
  { start_line := i, start_column := 1, end_line := i, end_column := 20 }

/-- Concrete expression node used by the sample programs below. -/
def sampleExpr (i : Nat) : SymbolicExpression :=
  { id := i, span := sampleSpan i }

/-- Concrete typed parameter used by the sample programs below. -/
def sampleVar : TypedVar :=
  { name := "amount", type_expr := sampleExpr 100 }

/-- Concrete checker state with one recorded function of arity 1. -/
def sampleState : CallChecker :=
  { diagnostics := [], user_funcs := [("foo", 1)], user_calls := [] }

/-- Concrete program with one deferred call (before the definition) and one
immediately checked call (after the definition). -/
def sampleProgTwoCalls : List VisitEvent :=
  [VisitEvent.call_user_defined (sampleExpr 1) "foo" [],
   VisitEvent.define_private (sampleExpr 2) "foo" (some [sampleVar]) (sampleExpr 3),
   VisitEvent.call_user_defined (sampleExpr 4) "foo" [sampleExpr 5]]

theorem traverse_nil (s : CallChecker) : s.traverse [] = s := rfl

theorem traverse_cons (s : CallChecker) (e : VisitEvent) (rest : List VisitEvent) :
    s.traverse (e :: rest) = (s.step e).traverse rest := rfl

theorem visit_define_private_eq (s : CallChecker) (expr : SymbolicExpression)
    (name : ClarityName) (parameters : Option (List TypedVar))
    (body : SymbolicExpression) :
    s.visit_define_private expr name parameters body =
      ({ s with user_funcs := (name, paramCount parameters) :: s.user_funcs }, true) := by
  cases parameters <;> rfl

theorem visit_define_public_eq (s : CallChecker) (expr : SymbolicExpression)
    (name : ClarityName) (parameters : Option (List TypedVar))
    (body : SymbolicExpression) :
    s.visit_define_public expr name parameters body =
      ({ s with user_funcs := (name, paramCount parameters) :: s.user_funcs }, true) := by
  cases parameters <;> rfl

theorem visit_define_read_only_eq (s : CallChecker) (expr : SymbolicExpression)
    (name : ClarityName) (parameters : Option (List TypedVar))
    (body : SymbolicExpression) :
    s.visit_define_read_only expr name parameters body =
      ({ s with user_funcs := (name, paramCount parameters) :: s.user_funcs }, true) := by
  cases parameters <;> rfl

theorem traverse_eq (events : List VisitEvent) : ∀ (s : CallChecker),
    s.traverse events =
      { diagnostics := s.diagnostics ++ immDiags s.user_funcs events
        user_funcs := tableAfter s.user_funcs events
        user_calls := s.user_calls ++ deferredAfter s.user_funcs events } := by
  induction events with
  | nil =>
    intro s
    simp [traverse_nil, immDiags, tableAfter, deferredAfter]
  | cons e rest ih =>
    intro s
    cases e with
    | define_private expr name parameters body =>
      rw [traverse_cons]
      simp only [CallChecker.step, visit_define_private_eq]
      rw [ih]
      simp [immDiags, tableAfter, deferredAfter]
    | define_public expr name parameters body =>
      rw [traverse_cons]
      simp only [CallChecker.step, visit_define_public_eq]
      rw [ih]
      simp [immDiags, tableAfter, deferredAfter]
    | define_read_only expr name parameters body =>
      rw [traverse_cons]
      simp only [CallChecker.step, visit_define_read_only_eq]
      rw [ih]
      simp [immDiags, tableAfter, deferredAfter]
    | call_user_defined expr name args =>
      rw [traverse_cons]
      simp only [CallChecker.step]
      cases h : s.user_funcs.lookup name with
      | none =>
        have hv : (s.visit_call_user_defined expr name args).1 =
            { s with user_calls := s.user_calls ++ [(name, expr, args.length)] } := by
          simp [CallChecker.visit_call_user_defined, h]
        rw [hv, ih]
        simp [immDiags, tableAfter, deferredAfter, h, List.append_assoc]
      | some pc =>
        by_cases heq : args.length = pc
        · have hv : (s.visit_call_user_defined expr name args).1 = s := by
            simp [CallChecker.visit_call_user_defined, h, heq]
          rw [hv, ih]
          simp [immDiags, tableAfter, deferredAfter, h, heq]
        · have hv : (s.visit_call_user_defined expr name args).1 =
              { s with diagnostics :=
                s.diagnostics ++ [generate_diagnostic expr name pc args.length] } := by
            simp [CallChecker.visit_call_user_defined, h, heq]
          rw [hv, ih]
          simp [immDiags, tableAfter, deferredAfter, h, heq, List.append_assoc]

theorem check_user_calls_eq (s : CallChecker) :
    s.check_user_calls =
      { s with diagnostics := s.diagnostics ++ reconDiags s.user_funcs s.user_calls } := by
  have key : ∀ (calls : List (ClarityName × SymbolicExpression × Nat))
      (ds : List Diagnostic),
      List.foldl
        (fun ds r =>
          match s.user_funcs.lookup r.1 with
          | some num_params =>
            if r.2.2 ≠ num_params then
              ds ++ [generate_diagnostic r.2.1 r.1 num_params r.2.2]
            else
              ds
          | none => ds)
        ds calls = ds ++ reconDiags s.user_funcs calls := by
    intro calls
    induction calls with
    | nil =>
      intro ds
      simp [reconDiags]
    | cons r rest ih =>
      intro ds
      simp only [List.foldl_cons]
      cases h : s.user_funcs.lookup r.1 with
      | none =>
        simp only [h]
        rw [ih]
        simp [reconDiags, reconDiag, h]
      | some np =>
        by_cases heq : r.2.2 = np
        · simp only [h, heq]
          rw [ih]
          simp [reconDiags, reconDiag, h, heq]
        · simp only [h, if_pos heq]
          rw [ih]
          simp [reconDiags, reconDiag, h, heq, List.append_assoc]
  simp only [CallChecker.check_user_calls]
  rw [key s.user_calls s.diagnostics]

theorem run_diags_eq (events : List VisitEvent) :
    ((CallChecker.new.traverse events).check_user_calls).diagnostics =
      passDiags events := by
  rw [traverse_eq events CallChecker.new, check_user_calls_eq]
  simp [CallChecker.new, passDiags]

/-- C1: the pass outcome is a failure (an `Except.error` carrying the
accumulated diagnostic list) if and only if at least one arity mismatch was
found across the immediate and deferred checks (i.e. the accumulated
diagnostic list `passDiags` is non-empty); when no mismatch is found the
pass returns `Except.ok` with an empty diagnostic list. -/
theorem pass_failure_iff_mismatch (ca : ContractAnalysis) :
    (CallChecker.new.run ca = Except.error (passDiags ca.expressions) ↔
      passDiags ca.expressions ≠ []) ∧
    (CallChecker.new.run ca = Except.ok [] ↔ passDiags ca.expressions = []) := by
  simp only [CallChecker.run]
  rw [run_diags_eq]
  by_cases h : passDiags ca.expressions = [] <;> simp [h, List.length_pos]

/-- C2: the call hook checks immediately against a recorded arity (pushing
a diagnostic exactly on a count mismatch and doing nothing on a match),
defers the call into the pending list when the name has no entry yet, and
always returns `true` to continue recursion. -/
theorem visit_call_behaviour (s : CallChecker) (expr : SymbolicExpression)
    (name : ClarityName) (args : List SymbolicExpression) :
    (s.visit_call_user_defined expr name args).2 = true ∧
    (∀ pc, s.user_funcs.lookup name = some pc → args.length ≠ pc →
      (s.visit_call_user_defined expr name args).1 =
        { s with diagnostics :=
            s.diagnostics ++ [generate_diagnostic expr name pc args.length] }) ∧
    (∀ pc, s.user_funcs.lookup name = some pc → args.length = pc →
      (s.visit_call_user_defined expr name args).1 = s) ∧
    (s.user_funcs.lookup name = none →
      (s.visit_call_user_defined expr name args).1 =
        { s with user_calls := s.user_calls ++ [(name, expr, args.length)] }) := by
  refine ⟨?_, ?_, ?_, ?_⟩
  · rcases h : s.user_funcs.lookup name with _ | pc
    · simp [CallChecker.visit_call_user_defined, h]
    · simp only [CallChecker.visit_call_user_defined, h]
      split <;> rfl
  · intro pc h hne
    simp [CallChecker.visit_call_user_defined, h, hne]
  · intro pc h heq
    simp [CallChecker.visit_call_user_defined, h, heq]
  · intro h
    simp [CallChecker.visit_call_user_defined, h]

theorem visit_call_behaviour_witness :
    sampleState.user_funcs.lookup "foo" = some 1 ∧
    [sampleExpr 2, sampleExpr 3].length ≠ 1 ∧
    (sampleState.visit_call_user_defined (sampleExpr 1) "foo"
        [sampleExpr 2, sampleExpr 3]).1 =
      { sampleState with diagnostics := sampleState.diagnostics ++
          [generate_diagnostic (sampleExpr 1) "foo" 1
            [sampleExpr 2, sampleExpr 3].length] } :=
  ⟨by decide, by decide,
    (visit_call_behaviour sampleState (sampleExpr 1) "foo"
      [sampleExpr 2, sampleExpr 3]).2.1 1 (by decide) (by decide)⟩

/-- C3: reconciliation iterates the pending call list exactly once, in
deferral order; a deferred record is silently skipped when its name is
absent from the final table or when the counts agree, and contributes
exactly one diagnostic (carrying the call expression itself) when the
counts differ; these diagnostics are appended after the already-recorded
immediate ones, and the table and pending list are left unchanged. -/
theorem reconciliation_behaviour (s : CallChecker) :
    s.check_user_calls.user_funcs = s.user_funcs ∧
    s.check_user_calls.user_calls = s.user_calls ∧
    s.check_user_calls.diagnostics =
      s.diagnostics ++ s.user_calls.filterMap (reconDiag s.user_funcs) ∧
    (∀ (funcs : List (ClarityName × Nat)) (name : ClarityName)
        (expr : SymbolicExpression) (n : Nat),
      funcs.lookup name = none → reconDiag funcs (name, expr, n) = none) ∧
    (∀ (funcs : List (ClarityName × Nat)) (name : ClarityName)
        (expr : SymbolicExpression) (n pc : Nat),
      funcs.lookup name = some pc → n = pc →
        reconDiag funcs (name, expr, n) = none) ∧
    (∀ (funcs : List (ClarityName × Nat)) (name : ClarityName)
        (expr : SymbolicExpression) (n pc : Nat),
      funcs.lookup name = some pc → n ≠ pc →
        reconDiag funcs (name, expr, n) =
          some (generate_diagnostic expr name pc n)) := by
  refine ⟨?_, ?_, ?_, ?_, ?_, ?_⟩
  · rw [check_user_calls_eq]
  · rw [check_user_calls_eq]
  · rw [check_user_calls_eq]
    rfl
  · intro funcs name expr n h
    simp [reconDiag, h]
  · intro funcs name expr n pc h heq
    simp [reconDiag, h, heq]
  · intro funcs name expr n pc h hne
    simp [reconDiag, h, hne]

theorem reconciliation_behaviour_witness :
    ([("foo", 1)] : List (ClarityName × Nat)).lookup "foo" = some 1 ∧
    (2 : Nat) ≠ 1 ∧
    reconDiag [("foo", 1)] ("foo", sampleExpr 1, 2) =
      some (generate_diagnostic (sampleExpr 1) "foo" 1 2) :=
  ⟨by decide, by decide,
    (reconciliation_behaviour CallChecker.new).2.2.2.2.2 [("foo", 1)] "foo"
      (sampleExpr 1) 2 1 (by decide) (by decide)⟩

/-- C4: every diagnostic produced by the pass has severity error, the exact
message `incorrect number of arguments in call to '<name>' (expected
<expected> got <actual>)`, a span list consisting of exactly one span equal
to the call expression's span, and no attached suggestion. -/
theorem diagnostic_shape (expr : SymbolicExpression) (name : ClarityName)
    (expected got : Nat) :
    (generate_diagnostic expr name expected got).level = Level.Error ∧
    (generate_diagnostic expr name expected got).message =
      "incorrect number of arguments in call to \x27" ++ name ++
        "\x27 (expected " ++ toString expected ++ " got " ++ toString got ++ ")" ∧
    (generate_diagnostic expr name expected got).spans = [expr.span] ∧
    (generate_diagnostic expr name expected got).spans.length = 1 ∧
    (generate_diagnostic expr name expected got).suggestion = none :=
  ⟨rfl, rfl, rfl, rfl, rfl⟩

/-- C5: each of the three definition hooks records into the arity table a
parameter count that is 0 when the optional parameter list is absent and
otherwise equals the list's length, and returns `true` to continue
recursion into the function body. -/
theorem define_hooks_record_arity (s : CallChecker) (expr : SymbolicExpression)
    (name : ClarityName) (parameters : Option (List TypedVar))
    (body : SymbolicExpression) :
    ((s.visit_define_private expr name parameters body).1.user_funcs =
        (name, paramCount parameters) :: s.user_funcs ∧
      (s.visit_define_private expr name parameters body).1.user_funcs.lookup name =
        some (paramCount parameters) ∧
      (s.visit_define_private expr name parameters body).2 = true) ∧
    ((s.visit_define_public expr name parameters body).1.user_funcs =
        (name, paramCount parameters) :: s.user_funcs ∧
      (s.visit_define_public expr name parameters body).1.user_funcs.lookup name =
        some (paramCount parameters) ∧
      (s.visit_define_public expr name parameters body).2 = true) ∧
    ((s.visit_define_read_only expr name parameters body).1.user_funcs =
        (name, paramCount parameters) :: s.user_funcs ∧
      (s.visit_define_read_only expr name parameters body).1.user_funcs.lookup name =
        some (paramCount parameters) ∧
      (s.visit_define_read_only expr name parameters body).2 = true) ∧
    paramCount none = 0 ∧
    (∀ l : List TypedVar, paramCount (some l) = l.length) := by
  refine ⟨⟨?_, ?_, ?_⟩, ⟨?_, ?_, ?_⟩, ⟨?_, ?_, ?_⟩, rfl, fun l => rfl⟩ <;>
    cases parameters <;>
      simp [visit_define_private_eq, visit_define_public_eq,
        visit_define_read_only_eq, List.lookup, paramCount]

/-- C7: when two definitions share the same function name, recording the
later definition overwrites the earlier entry in the arity table, so a
lookup after both recordings returns the most recently recorded parameter
count. -/
theorem later_definition_wins (s : CallChecker) (e1 e2 b1 b2 : SymbolicExpression)
    (name : ClarityName) (ps1 ps2 : Option (List TypedVar)) :
    ((s.visit_define_private e1 name ps1 b1).1.visit_define_private
        e2 name ps2 b2).1.user_funcs.lookup name = some (paramCount ps2) ∧
    ((s.visit_define_public e1 name ps1 b1).1.visit_define_public
        e2 name ps2 b2).1.user_funcs.lookup name = some (paramCount ps2) ∧
    ((s.visit_define_read_only e1 name ps1 b1).1.visit_define_read_only
        e2 name ps2 b2).1.user_funcs.lookup name = some (paramCount ps2) ∧
    ((s.visit_define_private e1 name ps1 b1).1.visit_define_public
        e2 name ps2 b2).1.user_funcs.lookup name = some (paramCount ps2) := by
  refine ⟨?_, ?_, ?_, ?_⟩ <;>
    cases ps2 <;>
      simp [visit_define_private_eq, visit_define_public_eq,
        visit_define_read_only_eq, List.lookup, paramCount]

theorem imm_defer_perm (events : List VisitEvent) :
    ∀ funcs : List (ClarityName × Nat),
      List.Perm
        (immCheckedIds funcs events ++
          (deferredAfter funcs events).map (fun r => r.2.1.id))
        (callIds events) := by
  induction events with
  | nil =>
    intro funcs
    simp [immCheckedIds, deferredAfter, callIds]
  | cons e rest ih =>
    intro funcs
    cases e with
    | define_private expr name parameters body =>
      simpa [immCheckedIds, deferredAfter, callIds] using
        ih ((name, paramCount parameters) :: funcs)
    | define_public expr name parameters body =>
      simpa [immCheckedIds, deferredAfter, callIds] using
        ih ((name, paramCount parameters) :: funcs)
    | define_read_only expr name parameters body =>
      simpa [immCheckedIds, deferredAfter, callIds] using
        ih ((name, paramCount parameters) :: funcs)
    | call_user_defined expr name args =>
      rcases h : funcs.lookup name with _ | pc
      · simp only [immCheckedIds, deferredAfter, callIds, h, List.map_cons]
        exact (List.perm_middle).trans (List.Perm.cons _ (ih funcs))
      · simp only [immCheckedIds, deferredAfter, callIds, h, List.cons_append]
        exact List.Perm.cons _ (ih funcs)

theorem recon_sublist (funcs : List (ClarityName × Nat))
    (calls : List (ClarityName × SymbolicExpression × Nat)) :
    List.Sublist (reconCheckedIds funcs calls)
      (calls.map (fun r => r.2.1.id)) := by
  induction calls with
  | nil =>
    simp [reconCheckedIds]
  | cons r rest ih =>
    simp only [reconCheckedIds, List.filterMap_cons, List.map_cons]
    rcases h : funcs.lookup r.1 with _ | np
    · simp only [h]
      exact List.Sublist.cons _ (by simpa [reconCheckedIds] using ih)
    · simp only [h]
      exact List.Sublist.cons₂ _ (by simpa [reconCheckedIds] using ih)

/-- C6: over one whole pass run, every visited call site is arity-checked
against the arity table at most once: the deferred records are exactly the
calls not checked immediately, and under distinct call-expression
identifiers the combined list of immediately checked and
reconciliation-checked call sites has no duplicate. -/
theorem call_site_checked_at_most_once (ca : ContractAnalysis)
    (h : (callIds ca.expressions).Nodup) :
    (CallChecker.new.traverse ca.expressions).user_calls =
      deferredAfter [] ca.expressions ∧
    (immCheckedIds [] ca.expressions ++
      reconCheckedIds (tableAfter [] ca.expressions)
        (deferredAfter [] ca.expressions)).Nodup := by
  constructor
  · rw [traverse_eq]
    simp [CallChecker.new]
  · have hperm := imm_defer_perm ca.expressions []
    have hnd : (immCheckedIds [] ca.expressions ++
        (deferredAfter [] ca.expressions).map (fun r => r.2.1.id)).Nodup :=
      hperm.nodup_iff.mpr h
    have hsub : List.Sublist
        (immCheckedIds [] ca.expressions ++
          reconCheckedIds (tableAfter [] ca.expressions)
            (deferredAfter [] ca.expressions))
        (immCheckedIds [] ca.expressions ++
          (deferredAfter [] ca.expressions).map (fun r => r.2.1.id)) :=
      List.Sublist.append_left (recon_sublist _ _) _
    exact List.Nodup.sublist hsub hnd

theorem call_site_checked_at_most_once_witness :
    (callIds sampleProgTwoCalls).Nodup ∧
    ((CallChecker.new.traverse sampleProgTwoCalls).user_calls =
        deferredAfter [] sampleProgTwoCalls ∧
      (immCheckedIds [] sampleProgTwoCalls ++
        reconCheckedIds (tableAfter [] sampleProgTwoCalls)
          (deferredAfter [] sampleProgTwoCalls)).Nodup) :=
  ⟨by decide,
    call_site_checked_at_most_once ⟨sampleProgTwoCalls⟩ (by decide)⟩

/-- C8: order independence: a program whose mismatched call precedes the
definition and a program whose identical mismatched call follows the
definition both fail with one diagnostic, and the two diagnostics have
identical message text, differing at most in source span. -/
theorem order_independent_message (name : ClarityName)
    (parameters : Option (List TypedVar)) (args : List SymbolicExpression)
    (exprC1 exprC2 exprD1 exprD2 body1 body2 : SymbolicExpression)
    (h : args.length ≠ paramCount parameters) :
    CallChecker.new.run
        ⟨[VisitEvent.call_user_defined exprC1 name args,
          VisitEvent.define_private exprD1 name parameters body1]⟩ =
      Except.error
        [generate_diagnostic exprC1 name (paramCount parameters) args.length] ∧
    CallChecker.new.run
        ⟨[VisitEvent.define_private exprD2 name parameters body2,
          VisitEvent.call_user_defined exprC2 name args]⟩ =
      Except.error
        [generate_diagnostic exprC2 name (paramCount parameters) args.length] ∧
    (generate_diagnostic exprC1 name (paramCount parameters) args.length).message =
      (generate_diagnostic exprC2 name (paramCount parameters) args.length).message := by
  refine ⟨?_, ?_, rfl⟩
  · have hA : passDiags
        [VisitEvent.call_user_defined exprC1 name args,
         VisitEvent.define_private exprD1 name parameters body1] =
        [generate_diagnostic exprC1 name (paramCount parameters) args.length] := by
      simp [passDiags, immDiags, tableAfter, deferredAfter, reconDiags,
        reconDiag, List.lookup, h]
    simp only [CallChecker.run]
    rw [run_diags_eq, hA]
    simp
  · have hB : passDiags
        [VisitEvent.define_private exprD2 name parameters body2,
         VisitEvent.call_user_defined exprC2 name args] =
        [generate_diagnostic exprC2 name (paramCount parameters) args.length] := by
      simp [passDiags, immDiags, tableAfter, deferredAfter, reconDiags,
        reconDiag, List.lookup, h]
    simp only [CallChecker.run]
    rw [run_diags_eq, hB]
    simp

theorem order_independent_message_witness :
    [sampleExpr 9, sampleExpr 10].length ≠ paramCount (some [sampleVar]) ∧
    (CallChecker.new.run
        ⟨[VisitEvent.call_user_defined (sampleExpr 1) "foo"
            [sampleExpr 9, sampleExpr 10],
          VisitEvent.define_private (sampleExpr 3) "foo" (some [sampleVar])
            (sampleExpr 5)]⟩ =
      Except.error
        [generate_diagnostic (sampleExpr 1) "foo" (paramCount (some [sampleVar]))
          [sampleExpr 9, sampleExpr 10].length] ∧
    CallChecker.new.run
        ⟨[VisitEvent.define_private (sampleExpr 4) "foo" (some [sampleVar])
            (sampleExpr 6),
          VisitEvent.call_user_defined (sampleExpr 2) "foo"
            [sampleExpr 9, sampleExpr 10]]⟩ =
      Except.error
        [generate_diagnostic (sampleExpr 2) "foo" (paramCount (some [sampleVar]))
          [sampleExpr 9, sampleExpr 10].length] ∧
    (generate_diagnostic (sampleExpr 1) "foo" (paramCount (some [sampleVar]))
        [sampleExpr 9, sampleExpr 10].length).message =
      (generate_diagnostic (sampleExpr 2) "foo" (paramCount (some [sampleVar]))
        [sampleExpr 9, sampleExpr 10].length).message) :=
  ⟨by decide,
    order_independent_message "foo" (some [sampleVar])
      [sampleExpr 9, sampleExpr 10] (sampleExpr 1) (sampleExpr 2) (sampleExpr 3)
      (sampleExpr 4) (sampleExpr 5) (sampleExpr 6) (by decide)⟩

/-- C10: an immediately checked call is judged against the most recent
definition recorded before it, while a deferred call is judged against the
final recorded count: with a name defined twice, a mismatched call between
the two definitions yields a diagnostic with the first definition's count,
and a mismatched call before both definitions yields a diagnostic with the
second definition's count, in that order. -/
theorem shadowed_definition_checks (name : ClarityName)
    (ps1 ps2 : Option (List TypedVar))
    (argsA argsB : List SymbolicExpression)
    (exprA exprB eD1 eD2 b1 b2 : SymbolicExpression)
    (hB : argsB.length ≠ paramCount ps1)
    (hA : argsA.length ≠ paramCount ps2) :
    CallChecker.new.run
        ⟨[VisitEvent.call_user_defined exprA name argsA,
          VisitEvent.define_private eD1 name ps1 b1,
          VisitEvent.call_user_defined exprB name argsB,
          VisitEvent.define_private eD2 name ps2 b2]⟩ =
      Except.error
        [generate_diagnostic exprB name (paramCount ps1) argsB.length,
         generate_diagnostic exprA name (paramCount ps2) argsA.length] := by
  have hd : passDiags
      [VisitEvent.call_user_defined exprA name argsA,
       VisitEvent.define_private eD1 name ps1 b1,
       VisitEvent.call_user_defined exprB name argsB,
       VisitEvent.define_private eD2 name ps2 b2] =
      [generate_diagnostic exprB name (paramCount ps1) argsB.length,
       generate_diagnostic exprA name (paramCount ps2) argsA.length] := by
    simp [passDiags, immDiags, tableAfter, deferredAfter, reconDiags,
      reconDiag, List.lookup, hA, hB]
  simp only [CallChecker.run]
  rw [run_diags_eq, hd]
  simp

theorem shadowed_definition_checks_witness :
    ([] : List SymbolicExpression).length ≠ paramCount (some [sampleVar]) ∧
    [sampleExpr 7].length ≠ paramCount (none : Option (List TypedVar)) ∧
    CallChecker.new.run
        ⟨[VisitEvent.call_user_defined (sampleExpr 1) "foo" [sampleExpr 7],
          VisitEvent.define_private (sampleExpr 2) "foo" (some [sampleVar])
            (sampleExpr 3),
          VisitEvent.call_user_defined (sampleExpr 4) "foo" [],
          VisitEvent.define_private (sampleExpr 5) "foo" none (sampleExpr 6)]⟩ =
      Except.error
        [generate_diagnostic (sampleExpr 4) "foo" (paramCount (some [sampleVar]))
          ([] : List SymbolicExpression).length,
         generate_diagnostic (sampleExpr 1) "foo"
          (paramCount (none : Option (List TypedVar))) [sampleExpr 7].length] :=
  ⟨by decide, by decide,
    shadowed_definition_checks "foo" (some [sampleVar]) none [sampleExpr 7] []
      (sampleExpr 1) (sampleExpr 4) (sampleExpr 2) (sampleExpr 5) (sampleExpr 3)
      (sampleExpr 6) (by decide) (by decide)⟩

/-- C9: the pass is deterministic: `run_pass` constructs a fresh checker
per invocation and its outcome is a function of the contract's expressions
only, unaffected by the analysis database and annotation arguments, so two
runs on the same unmodified program tree yield identical outcomes. -/
theorem run_pass_deterministic {α β γ δ : Type} (ca : ContractAnalysis)
    (db1 : α) (ann1 : β) (db2 : γ) (ann2 : δ) :
    run_pass ca db1 ann1 = run_pass ca db2 ann2 ∧
    run_pass ca db1 ann1 = CallChecker.new.run ca :=
  ⟨rfl, rfl⟩

end Checker
